import Mathlib

/-!
Verification of the TravelLog trip-planner service (src/app.py).

This file gives a shallow embedding of the data model and of the
operations that the specification claims talk about, translated from
src/app.py.  Python strings are Lean `String`, Python `None`-able values
are `Option`, database tables are lists of row structures, and each
request handler is a pure state transformer on a `World` of tables.
Randomness (uuid4), the storage public-URL builder, the active-trip
cookie and the current day are threaded as explicit parameters.
-/

set_option maxRecDepth 8000

namespace TravelLog

/-! ### Basic character and string helpers (ASCII models of the Python built-ins) -/

/-- ASCII decimal digit test, models the digit check used by `str.isdigit`
for the ASCII field names and numeric form values of the app. -/
def isAsciiDigit (c : Char) : Bool := 48 ≤ c.toNat && c.toNat ≤ 57

def digitVal (c : Char) : Nat := c.toNat - 48

/-- Value of a list of decimal digit characters, models `int(s)`. -/
def digitsToNat (cs : List Char) : Nat := cs.foldl (fun n c => n * 10 + digitVal c) 0

/-- Models Python `s.isdigit()` (ASCII): nonempty and all digits. -/
def isDigits (s : String) : Bool := !s.toList.isEmpty && s.toList.all isAsciiDigit

/-- Python whitespace characters stripped by `str.strip()`. -/
def isPyWs (c : Char) : Bool :=
  c.toNat = 32 || c.toNat = 9 || c.toNat = 10 || c.toNat = 11 || c.toNat = 12 || c.toNat = 13

def stripWsChars (cs : List Char) : List Char :=
  ((cs.dropWhile isPyWs).reverse.dropWhile isPyWs).reverse

/-- Models Python `str.strip()` with no arguments. -/
def pyStrip (s : String) : String := String.mk (stripWsChars s.toList)

/-- ASCII lower-casing of one character, models `str.lower` on the ASCII
keys the app feeds it. -/
def asciiLower (c : Char) : Char :=
  if 65 ≤ c.toNat && c.toNat ≤ 90 then Char.ofNat (c.toNat + 32) else c

def strLower (s : String) : String := String.mk (s.toList.map asciiLower)

/-- Python truthiness coercion `s or None` applied to an optional string:
an empty string collapses to `None`. -/
def orNone (v : Option String) : Option String :=
  match v with
  | none => none
  | some s => if s = "" then none else some s

/-- Truthiness of an optional string (`if value:`). -/
def strTruthy (v : Option String) : Bool :=
  match v with
  | none => false
  | some s => !(s = "")

/-- First value stored under a key, models `werkzeug.MultiDict.get`. -/
def formGet (form : List (String × String)) (k : String) : Option String :=
  (form.find? (fun p => p.1 == k)).map (fun p => p.2)

/-- `form.get(k) or ""` -/
def formGetStr (form : List (String × String)) (k : String) : String :=
  (formGet form k).getD ""

/-! ### `parse_date` (src/app.py lines 53-59)

`datetime.strptime(value, "%Y-%m-%d").date()` wrapped in `try/except
ValueError`.  CPython compiles the format to the regex
`\d\d\d\d-(1[0-2]|0[1-9]|[1-9])-(3[01]|[12]\d|0[1-9]|[1-9])`, requires the
whole input to be consumed, and then validates the calendar date when the
`date` object is constructed. -/

structure PyDate where
  year : Nat
  month : Nat
  day : Nat
deriving DecidableEq, Repr

def isLeapYear (y : Nat) : Bool :=
  y % 4 = 0 && (!(y % 100 = 0) || y % 400 = 0)

def daysInMonth (y m : Nat) : Nat :=
  if m = 2 then (if isLeapYear y then 29 else 28)
  else if m = 4 ∨ m = 6 ∨ m = 9 ∨ m = 11 then 30
  else 31

/-- The month alternation `1[0-2]|0[1-9]|[1-9]` of the strptime regex. -/
def matchMonthChars : List Char → Option (Nat × List Char)
  | [] => none
  | c :: rest =>
    if c = '1' then
      match rest with
      | c2 :: rest2 =>
        if c2 = '0' ∨ c2 = '1' ∨ c2 = '2' then some (10 + digitVal c2, rest2)
        else some (1, rest)
      | [] => some (1, [])
    else if c = '0' then
      match rest with
      | c2 :: rest2 =>
        if isAsciiDigit c2 ∧ ¬ c2 = '0' then some (digitVal c2, rest2) else none
      | [] => none
    else if isAsciiDigit c then some (digitVal c, rest)
    else none

/-- The day alternation `3[01]|[12]\d|0[1-9]|[1-9]` of the strptime regex. -/
def matchDayChars : List Char → Option (Nat × List Char)
  | [] => none
  | c :: rest =>
    if c = '3' then
      match rest with
      | c2 :: rest2 =>
        if c2 = '0' ∨ c2 = '1' then some (30 + digitVal c2, rest2)
        else some (3, rest)
      | [] => some (3, [])
    else if c = '1' ∨ c = '2' then
      match rest with
      | c2 :: rest2 =>
        if isAsciiDigit c2 then some (digitVal c * 10 + digitVal c2, rest2)
        else some (digitVal c, rest)
      | [] => some (digitVal c, [])
    else if c = '0' then
      match rest with
      | c2 :: rest2 =>
        if isAsciiDigit c2 ∧ ¬ c2 = '0' then some (digitVal c2, rest2) else none
      | [] => none
    else if isAsciiDigit c then some (digitVal c, rest)
    else none

/-- `datetime.strptime(s, "%Y-%m-%d")`; `none` models the `ValueError`
raised on a format mismatch, leftover input, or an invalid calendar
date. -/
def strptimeYmd (s : String) : Option PyDate :=
  match s.toList with
  | y1 :: y2 :: y3 :: y4 :: sep :: rest =>
    if isAsciiDigit y1 ∧ isAsciiDigit y2 ∧ isAsciiDigit y3 ∧ isAsciiDigit y4 ∧ sep = '-' then
      match matchMonthChars rest with
      | some (m, rest2) =>
        match rest2 with
        | sep2 :: rest3 =>
          if sep2 = '-' then
            match matchDayChars rest3 with
            | some (d, []) =>
              let y := digitsToNat [y1, y2, y3, y4]
              if 1 ≤ y ∧ d ≤ daysInMonth y m then some ⟨y, m, d⟩ else none
            | _ => none
          else none
        | [] => none
      | none => none
    else none
  | _ => none

/-- src/app.py `parse_date`: falsy input and unparseable input give
`None`; the function never raises. -/
def parse_date (value : Option String) : Option PyDate :=
  match value with
  | none => none
  | some s => if s = "" then none else strptimeYmd s

/-- Python `date` comparison (lexicographic on year, month, day). -/
def PyDate.ltB (a b : PyDate) : Bool :=
  Nat.blt a.year b.year ||
    (a.year == b.year &&
      (Nat.blt a.month b.month || (a.month == b.month && Nat.blt a.day b.day)))

def PyDate.ltP (a b : PyDate) : Prop := PyDate.ltB a b = true

instance : DecidableRel PyDate.ltP := fun a b =>
  inferInstanceAs (Decidable (PyDate.ltB a b = true))

/-- `datetime.date.min` -/
def pyDateMin : PyDate := ⟨1, 1, 1⟩

/-- `datetime.date.max` -/
def pyDateMax : PyDate := ⟨9999, 12, 31⟩

/-! ### `parse_float` (src/app.py lines 117-123)

`float(value)` wrapped in `try/except ValueError`.  The value of a
successful parse is modelled exactly, as the signed decimal rational
denoted by the literal (before rounding to binary), with `inf`/`nan`
literals kept symbolic. -/

inductive PyFloat where
  | num (q : ℚ)
  | inf (neg : Bool)
  | nan
deriving DecidableEq, Repr

/-- PEP 515: every underscore in a numeric literal must sit directly
between two digits. -/
def underscoresOkAux : Option Char → List Char → Bool
  | _, [] => true
  | prev, c :: rest =>
    if c.toNat = 95 then
      (match prev with
       | some p => isAsciiDigit p
       | none => false) &&
      (match rest with
       | r :: _ => isAsciiDigit r
       | [] => false) &&
      underscoresOkAux (some c) rest
    else underscoresOkAux (some c) rest

def underscoresOk (cs : List Char) : Bool := underscoresOkAux none cs

def takeDigits (cs : List Char) : List Char × List Char :=
  (cs.takeWhile isAsciiDigit, cs.dropWhile isAsciiDigit)

def pow10 (n : Nat) : Nat := 10 ^ n

/-- The numeric part of the C `strtod` grammar:
`digits [. digits] [ (e|E) [sign] digits ]` with at least one mantissa
digit.  The denoted rational is built with `Rat.divInt`. -/
def parseFloatBody (cs : List Char) : Option ℚ :=
  let ipart := takeDigits cs
  let afterInt := ipart.2
  let fpart :=
    match afterInt with
    | c :: t => if c = '.' then takeDigits t else ([], afterInt)
    | [] => ([], afterInt)
  if ipart.1.isEmpty ∧ fpart.1.isEmpty then none
  else
    let m : Nat := digitsToNat (ipart.1 ++ fpart.1)
    let den : Nat := pow10 fpart.1.length
    match fpart.2 with
    | [] => some (Rat.divInt (Int.ofNat m) (Int.ofNat den))
    | e :: t =>
      if asciiLower e = 'e' then
        let signed :
            Bool × List Char :=
          match t with
          | c :: t2 => if c = '+' then (false, t2) else if c = '-' then (true, t2) else (false, t)
          | [] => (false, t)
        let epart := takeDigits signed.2
        if epart.1.isEmpty ∨ ¬ epart.2.isEmpty then none
        else
          let ev := digitsToNat epart.1
          some
            (if signed.1 then Rat.divInt (Int.ofNat m) (Int.ofNat (den * pow10 ev))
             else Rat.divInt (Int.ofNat (m * pow10 ev)) (Int.ofNat den))
      else none

/-- `float(s)` for a string: strip whitespace, validate PEP 515
underscores, then accept a signed number or a signed `inf`, `infinity` or
`nan` keyword (case-insensitive); everything else raises `ValueError`,
modelled by `none`. -/
def pyFloatOfChars (cs0 : List Char) : Option PyFloat :=
  let cs1 := stripWsChars cs0
  if underscoresOk cs1 then
    let cs := cs1.filter (fun c => ¬ c.toNat = 95)
    let signedBody :
        Bool × List Char :=
      match cs with
      | c :: t => if c = '+' then (false, t) else if c = '-' then (true, t) else (false, cs)
      | [] => (false, cs)
    let low := signedBody.2.map asciiLower
    if low = ['i', 'n', 'f'] ∨ low = "infinity".toList then some (.inf signedBody.1)
    else if low = ['n', 'a', 'n'] then some .nan
    else
      match parseFloatBody signedBody.2 with
      | some q => some (.num (if signedBody.1 then -q else q))
      | none => none
  else none

/-- src/app.py `parse_float`: `None` or `""` gives `None`, a string that
`float` rejects gives `None`, otherwise the parsed value; never raises. -/
def parse_float (value : Option String) : Option PyFloat :=
  match value with
  | none => none
  | some s => if s = "" then none else pyFloatOfChars s.toList

/-! ### `normalize_category` (src/app.py lines 126-136) -/

def PLACE_CATEGORIES : List String := ["スポット", "レストラン", "居酒屋", "カフェ", "その他"]

/-- `LEGACY_CATEGORY_MAP[key]` lookup (src/app.py lines 18-23). -/
def legacyCategoryLookup (key : String) : Option String :=
  if key = "spot" then some "スポット"
  else if key = "restaurant" then some "レストラン"
  else if key = "izakaya" then some "居酒屋"
  else if key = "cafe" then some "カフェ"
  else none

/-- src/app.py `normalize_category`. -/
def normalize_category (value : Option String) : String :=
  match value with
  | none => "その他"
  | some s0 =>
    if s0 = "" then "その他"
    else
      let s := pyStrip s0
      if PLACE_CATEGORIES.contains s then s
      else
        match legacyCategoryLookup (strLower s) with
        | some v => v
        | none => "その他"

/-! ### `urllib.parse.unquote` model

Percent escapes become bytes, literal characters contribute their UTF-8
bytes, and the byte sequence is decoded as UTF-8 with U+FFFD replacement
of maximal invalid subparts, matching the CPython decoder. -/

def utf8Bytes (c : Char) : List Nat :=
  let n := c.toNat
  if n < 128 then [n]
  else if n < 2048 then [192 + n / 64, 128 + n % 64]
  else if n < 65536 then [224 + n / 4096, 128 + (n / 64) % 64, 128 + n % 64]
  else [240 + n / 262144, 128 + (n / 4096) % 64, 128 + (n / 64) % 64, 128 + n % 64]

def replacementChar : Char := Char.ofNat 65533

def isUtf8Cont (b : Nat) : Bool := 128 ≤ b && b < 192

/-- Range of the second byte allowed after a given 3- or 4-byte lead
(excludes overlong forms, surrogates, and code points above U+10FFFF). -/
def utf8SecondOk (lead b : Nat) : Bool :=
  if lead = 224 then 160 ≤ b && b < 192
  else if lead = 237 then 128 ≤ b && b < 160
  else if lead = 240 then 144 ≤ b && b < 192
  else if lead = 244 then 128 ≤ b && b < 144
  else isUtf8Cont b

/-- Fuelled UTF-8 decoding step; each step consumes at least one byte,
so fuel equal to the byte count never runs out. -/
def utf8DecodeF : Nat → List Nat → List Char
  | 0, _ => []
  | _, [] => []
  | fuel + 1, b :: rest =>
    if b < 128 then Char.ofNat b :: utf8DecodeF fuel rest
    else if 194 ≤ b && b ≤ 223 then
      match rest with
      | b2 :: rest2 =>
        if isUtf8Cont b2 then Char.ofNat ((b - 192) * 64 + (b2 - 128)) :: utf8DecodeF fuel rest2
        else replacementChar :: utf8DecodeF fuel (b2 :: rest2)
      | [] => [replacementChar]
    else if 224 ≤ b && b ≤ 239 then
      match rest with
      | b2 :: rest2 =>
        if utf8SecondOk b b2 then
          match rest2 with
          | b3 :: rest3 =>
            if isUtf8Cont b3 then
              Char.ofNat ((b - 224) * 4096 + (b2 - 128) * 64 + (b3 - 128)) ::
                utf8DecodeF fuel rest3
            else replacementChar :: utf8DecodeF fuel (b3 :: rest3)
          | [] => [replacementChar]
        else replacementChar :: utf8DecodeF fuel (b2 :: rest2)
      | [] => [replacementChar]
    else if 240 ≤ b && b ≤ 244 then
      match rest with
      | b2 :: rest2 =>
        if utf8SecondOk b b2 then
          match rest2 with
          | b3 :: rest3 =>
            if isUtf8Cont b3 then
              match rest3 with
              | b4 :: rest4 =>
                if isUtf8Cont b4 then
                  Char.ofNat
                      ((b - 240) * 262144 + (b2 - 128) * 4096 + (b3 - 128) * 64 + (b4 - 128)) ::
                    utf8DecodeF fuel rest4
                else replacementChar :: utf8DecodeF fuel (b4 :: rest4)
              | [] => [replacementChar]
            else replacementChar :: utf8DecodeF fuel (b3 :: rest3)
          | [] => [replacementChar]
        else replacementChar :: utf8DecodeF fuel (b2 :: rest2)
      | [] => [replacementChar]
    else replacementChar :: utf8DecodeF fuel rest

def utf8Decode (bs : List Nat) : List Char := utf8DecodeF bs.length bs

def hexDigitVal (c : Char) : Option Nat :=
  if isAsciiDigit c then some (digitVal c)
  else if 97 ≤ c.toNat && c.toNat ≤ 102 then some (c.toNat - 87)
  else if 65 ≤ c.toNat && c.toNat ≤ 70 then some (c.toNat - 55)
  else none

/-- Byte stream of a percent-encoded string: a valid `%xx` escape yields
its byte, anything else its UTF-8 bytes (invalid escapes stay literal,
as in `urllib.parse.unquote`). -/
def pctBytesF : Nat → List Char → List Nat
  | 0, _ => []
  | _, [] => []
  | fuel + 1, c :: rest =>
    if c = '%' then
      match rest with
      | a :: b :: rest2 =>
        (match hexDigitVal a, hexDigitVal b with
         | some ha, some hb => (ha * 16 + hb) :: pctBytesF fuel rest2
         | _, _ => utf8Bytes c ++ pctBytesF fuel (a :: b :: rest2))
      | _ => utf8Bytes c ++ pctBytesF fuel rest
    else utf8Bytes c ++ pctBytesF fuel rest

def pctBytes (cs : List Char) : List Nat := pctBytesF cs.length cs

/-- `urllib.parse.unquote` with the default utf-8/replace arguments. -/
def unquote (s : String) : String := String.mk (utf8Decode (pctBytes s.toList))

/-! ### `extract_photo_reference` and `normalize_photo_url`
(src/app.py lines 163-183) -/

def charsStart : List Char → List Char → Bool
  | [], _ => true
  | _ :: _, [] => false
  | p :: ps, c :: rest => p == c && charsStart ps rest

def strStarts (s pre : String) : Bool := charsStart pre.toList s.toList

/-- `re.search` of the pattern `[?&]<tag>([^&]+)`: scan start positions
left to right; at a position holding a query separator directly followed
by the tag and at least one non-separator character, capture the maximal
run of non-separator characters. -/
def scanParamToken (tag : List Char) : List Char → Option (List Char)
  | [] => none
  | c :: rest =>
    if (c = '?' ∨ c = '&') ∧ charsStart tag rest then
      let after := rest.drop tag.length
      match after with
      | a :: _ =>
        if a = '&' then scanParamToken tag rest
        else some (after.takeWhile (fun x => ¬ x = '&'))
      | [] => scanParamToken tag rest
    else scanParamToken tag rest

/-- src/app.py `extract_photo_reference`: try `[?&]photo_reference=(...)`
then `[?&]1s(...)`, URL-decoding the captured token. -/
def extract_photo_reference (url : Option String) : Option String :=
  match url with
  | none => none
  | some s =>
    if s = "" then none
    else
      match scanParamToken ("photo_reference=".toList) s.toList with
      | some tok => some (unquote (String.mk tok))
      | none =>
        match scanParamToken ("1s".toList) s.toList with
        | some tok => some (unquote (String.mk tok))
        | none => none

/-- src/app.py `normalize_photo_url`. -/
def normalize_photo_url (value : Option String) : Option String :=
  match value with
  | none => none
  | some s =>
    if s = "" then none
    else if strStarts s "google-ref:" then some s
    else
      match extract_photo_reference (some s) with
      | some ref => some ("google-ref:" ++ ref)
      | none => some s

/-! ### `json.loads` model, for `parse_photo_urls` / `parse_photo_refs`
(src/app.py lines 139-160)

Only the success/failure behaviour and the shape of the decoded value
matter to the app (it keeps the nonempty strings of a top-level list), so
numbers are carried as their lexemes.  Recursion is fuelled; the initial
fuel is far larger than the number of parsing steps any input of the
given length can take, so exhaustion never occurs on reachable inputs.
A lone escaped surrogate (which CPython keeps as a surrogate code unit,
a value a Lean `Char` cannot hold) is approximated by U+FFFD. -/

inductive JsonVal where
  | null
  | bool (b : Bool)
  | num (lexeme : String)
  | str (s : String)
  | arr (items : List JsonVal)
  | obj (fields : List (String × JsonVal))

def skipJsonWs (cs : List Char) : List Char :=
  cs.dropWhile (fun c => c.toNat = 32 || c.toNat = 9 || c.toNat = 10 || c.toNat = 13)

def jsonHex4 : List Char → Option (Nat × List Char)
  | a :: b :: c :: d :: rest =>
    (match hexDigitVal a, hexDigitVal b, hexDigitVal c, hexDigitVal d with
     | some x1, some x2, some x3, some x4 => some (((x1 * 16 + x2) * 16 + x3) * 16 + x4, rest)
     | _, _, _, _ => none)
  | _ => none

def jsonStringBody : Nat → List Char → Option (List Char × List Char)
  | 0, _ => none
  | fuel + 1, cs =>
    match cs with
    | [] => none
    | c :: rest =>
      if c.toNat = 34 then some ([], rest)
      else if c.toNat = 92 then
        match rest with
        | e :: rest2 =>
          if e.toNat = 34 ∨ e.toNat = 92 ∨ e = '/' then
            (jsonStringBody fuel rest2).map (fun p => (e :: p.1, p.2))
          else if e = 'b' then
            (jsonStringBody fuel rest2).map (fun p => (Char.ofNat 8 :: p.1, p.2))
          else if e = 'f' then
            (jsonStringBody fuel rest2).map (fun p => (Char.ofNat 12 :: p.1, p.2))
          else if e = 'n' then
            (jsonStringBody fuel rest2).map (fun p => (Char.ofNat 10 :: p.1, p.2))
          else if e = 'r' then
            (jsonStringBody fuel rest2).map (fun p => (Char.ofNat 13 :: p.1, p.2))
          else if e = 't' then
            (jsonStringBody fuel rest2).map (fun p => (Char.ofNat 9 :: p.1, p.2))
          else if e = 'u' then
            match jsonHex4 rest2 with
            | some (v, rest3) =>
              if 55296 ≤ v ∧ v ≤ 56319 then
                match rest3 with
                | s1 :: s2 :: rest4 =>
                  if s1.toNat = 92 ∧ s2 = 'u' then
                    match jsonHex4 rest4 with
                    | some (w, rest5) =>
                      if 56320 ≤ w ∧ w ≤ 57343 then
                        (jsonStringBody fuel rest5).map
                          (fun p =>
                            (Char.ofNat (65536 + (v - 55296) * 1024 + (w - 56320)) :: p.1, p.2))
                      else (jsonStringBody fuel rest3).map (fun p => (replacementChar :: p.1, p.2))
                    | none => (jsonStringBody fuel rest3).map (fun p => (replacementChar :: p.1, p.2))
                  else (jsonStringBody fuel rest3).map (fun p => (replacementChar :: p.1, p.2))
                | _ => (jsonStringBody fuel rest3).map (fun p => (replacementChar :: p.1, p.2))
              else if 56320 ≤ v ∧ v ≤ 57343 then
                (jsonStringBody fuel rest3).map (fun p => (replacementChar :: p.1, p.2))
              else (jsonStringBody fuel rest3).map (fun p => (Char.ofNat v :: p.1, p.2))
            | none => none
          else none
        | [] => none
      else if c.toNat < 32 then none
      else (jsonStringBody fuel rest).map (fun p => (c :: p.1, p.2))

def jsonNumExp (lex : List Char) (rest : List Char) : List Char × List Char :=
  match rest with
  | c :: t =>
    if c = 'e' ∨ c = 'E' then
      let st : List Char × List Char :=
        match t with
        | s :: t2 => if s = '+' ∨ s = '-' then ([s], t2) else ([], t)
        | [] => ([], t)
      let ds := takeDigits st.2
      if ds.1.isEmpty then (lex, rest) else (lex ++ c :: (st.1 ++ ds.1), ds.2)
    else (lex, rest)
  | [] => (lex, rest)

def jsonNumFrac (lex : List Char) (rest : List Char) : List Char × List Char :=
  match rest with
  | c :: t =>
    if c = '.' then
      let ds := takeDigits t
      if ds.1.isEmpty then jsonNumExp lex rest else jsonNumExp (lex ++ c :: ds.1) ds.2
    else jsonNumExp lex rest
  | [] => (lex, rest)

/-- The scanner regex `(-?(?:0|[1-9]\d*))(\.\d+)?([eE][-+]?\d+)?`. -/
def jsonNumberLex (cs : List Char) : Option (List Char × List Char) :=
  let sg : List Char × List Char :=
    match cs with
    | c :: t => if c = '-' then ([c], t) else ([], cs)
    | [] => ([], cs)
  match sg.2 with
  | c :: t =>
    if c = '0' then some (jsonNumFrac (sg.1 ++ [c]) t)
    else if isAsciiDigit c then
      let ds := takeDigits t
      some (jsonNumFrac (sg.1 ++ c :: ds.1) ds.2)
    else none
  | [] => none

mutual

def jsonParseVal : Nat → List Char → Option (JsonVal × List Char)
  | 0, _ => none
  | fuel + 1, cs =>
    match cs with
    | [] => none
    | c :: rest =>
      if c.toNat = 34 then
        (jsonStringBody (fuel + 1) rest).map (fun p => (JsonVal.str (String.mk p.1), p.2))
      else if c.toNat = 123 then
        let cs2 := skipJsonWs rest
        match cs2 with
        | d :: rest2 =>
          if d.toNat = 125 then some (.obj [], rest2) else jsonParseFields fuel cs2 []
        | [] => none
      else if c.toNat = 91 then
        let cs2 := skipJsonWs rest
        match cs2 with
        | d :: rest2 =>
          if d.toNat = 93 then some (.arr [], rest2) else jsonParseItems fuel cs2 []
        | [] => none
      else if charsStart ("true".toList) cs then some (.bool true, cs.drop 4)
      else if charsStart ("false".toList) cs then some (.bool false, cs.drop 5)
      else if charsStart ("null".toList) cs then some (.null, cs.drop 4)
      else
        match jsonNumberLex cs with
        | some p => some (.num (String.mk p.1), p.2)
        | none =>
          if charsStart ("NaN".toList) cs then some (.num "NaN", cs.drop 3)
          else if charsStart ("Infinity".toList) cs then some (.num "Infinity", cs.drop 8)
          else if charsStart ("-Infinity".toList) cs then some (.num "-Infinity", cs.drop 9)
          else none

def jsonParseItems : Nat → List Char → List JsonVal → Option (JsonVal × List Char)
  | 0, _, _ => none
  | fuel + 1, cs, acc =>
    match jsonParseVal fuel (skipJsonWs cs) with
    | some (v, rest) =>
      (match skipJsonWs rest with
       | d :: rest3 =>
         if d = ',' then jsonParseItems fuel rest3 (acc ++ [v])
         else if d.toNat = 93 then some (.arr (acc ++ [v]), rest3)
         else none
       | [] => none)
    | none => none

def jsonParseFields : Nat → List Char → List (String × JsonVal) →
    Option (JsonVal × List Char)
  | 0, _, _ => none
  | fuel + 1, cs, acc =>
    match skipJsonWs cs with
    | k :: rest =>
      if k.toNat = 34 then
        match jsonStringBody (fuel + 1) rest with
        | some (keyChars, rest2) =>
          (match skipJsonWs rest2 with
           | col :: rest3 =>
             if col = ':' then
               match jsonParseVal fuel (skipJsonWs rest3) with
               | some (v, rest4) =>
                 let acc2 := acc ++ [(String.mk keyChars, v)]
                 (match skipJsonWs rest4 with
                  | d :: rest5 =>
                    if d = ',' then jsonParseFields fuel rest5 acc2
                    else if d.toNat = 125 then some (.obj acc2, rest5)
                    else none
                  | [] => none)
               | none => none
             else none
           | [] => none)
        | none => none
      else none
    | [] => none

end

/-- `json.loads`: leading/trailing whitespace is allowed and the whole
input must be consumed; `none` models `JSONDecodeError`. -/
def jsonLoads (s : String) : Option JsonVal :=
  match jsonParseVal (8 * s.toList.length + 16) (skipJsonWs s.toList) with
  | some (v, rest) => if (skipJsonWs rest).isEmpty then some v else none
  | none => none

/-- src/app.py `parse_photo_urls`: decode JSON, keep only the nonempty
strings of a top-level list, and fall back to `[]` on anything else. -/
def parse_photo_urls (value : Option String) : List String :=
  match value with
  | none => []
  | some s =>
    if s = "" then []
    else
      match jsonLoads s with
      | some (.arr items) =>
        items.filterMap (fun it =>
          match it with
          | .str x => if x = "" then none else some x
          | _ => none)
      | _ => []

/-- src/app.py `parse_photo_refs` (same body as `parse_photo_urls`). -/
def parse_photo_refs (value : Option String) : List String :=
  match value with
  | none => []
  | some s =>
    if s = "" then []
    else
      match jsonLoads s with
      | some (.arr items) =>
        items.filterMap (fun it =>
          match it with
          | .str x => if x = "" then none else some x
          | _ => none)
      | _ => []

/-! ### Photo ingestion (src/app.py lines 24, 197-225)

A `FileStorage` is a submitted file: name, raw bytes, declared MIME type.
`werkzeug.secure_filename` is modelled for inputs whose characters are
ASCII or NFKD-stable non-ASCII (both are exactly what the model drops or
keeps; ASCII-decomposable characters such as accented Latin letters are
the one unmodelled case).  The uuid4 hex of each upload and the storage
public-URL builder are explicit parameters. -/

structure FileStorage where
  filename : String
  content : List Nat
  mimetype : Option String
deriving DecidableEq, Repr

def ALLOWED_IMAGE_EXT : List String := ["jpg", "jpeg", "png", "webp"]

def asciiKeep (cs : List Char) : List Char := cs.filter (fun c => c.toNat < 128)

/-- Python `str.split()` without arguments: split on whitespace runs,
dropping empty pieces. -/
def pySplitWsAux : List Char → List Char → List (List Char)
  | cur, [] => if cur.isEmpty then [] else [cur.reverse]
  | cur, c :: rest =>
    if isPyWs c then
      (if cur.isEmpty then pySplitWsAux [] rest else cur.reverse :: pySplitWsAux [] rest)
    else pySplitWsAux (c :: cur) rest

def pySplitWs (cs : List Char) : List (List Char) := pySplitWsAux [] cs

/-- Characters kept by the werkzeug filename regex `[A-Za-z0-9_.-]`. -/
def keepFileChar (c : Char) : Bool :=
  (65 ≤ c.toNat && c.toNat ≤ 90) || (97 ≤ c.toNat && c.toNat ≤ 122) || isAsciiDigit c ||
    c = '_' || c = '.' || c = '-'

def stripDotUnderscore (cs : List Char) : List Char :=
  ((cs.dropWhile (fun c => c == '.' || c == '_')).reverse.dropWhile
      (fun c => c == '.' || c == '_')).reverse

/-- `werkzeug.utils.secure_filename` on a posix host: drop non-ASCII,
turn the path separator into a space, join the whitespace-split words
with underscores, drop unsafe characters, and strip leading and trailing
dots and underscores. -/
def secure_filename (filename : String) : String :=
  let cs := asciiKeep filename.toList
  let cs2 := cs.map (fun c => if c = '/' then ' ' else c)
  let joined := List.intercalate ['_'] (pySplitWs cs2)
  String.mk (stripDotUnderscore (joined.filter keepFileChar))

/-- Characters after the last occurrence of `sep` (`s.rsplit(sep, 1)[1]`
when `sep` occurs). -/
def afterLastChar (sep : Char) (cs : List Char) : List Char :=
  (cs.reverse.takeWhile (fun c => !(c == sep))).reverse

/-- One storage `upload(key, bytes, content-type)` call. -/
structure UploadCall where
  key : String
  content : List Nat
  contentType : String
deriving DecidableEq, Repr

/-- src/app.py `upload_place_photo`: the returned URL (or `None` on a
silent skip) together with the storage calls issued. -/
def upload_place_photo (publicUrl : String → String) (uuidHex : String)
    (file : Option FileStorage) : Option String × List UploadCall :=
  match file with
  | none => (none, [])
  | some f =>
    if f.filename = "" then (none, [])
    else
      let filename := secure_filename f.filename
      if ¬ filename.toList.contains '.' then (none, [])
      else
        let ext := strLower (String.mk (afterLastChar '.' filename.toList))
        if ¬ ALLOWED_IMAGE_EXT.contains ext then (none, [])
        else if f.content = [] then (none, [])
        else
          let key := "places/" ++ uuidHex ++ "." ++ ext
          let ct := (orNone f.mimetype).getD "application/octet-stream"
          (some (publicUrl key), [UploadCall.mk key f.content ct])

/-- src/app.py `upload_place_photos`: per-file upload keeping only the
successful URLs in order; `uuids` is the stream of uuid4 hex values, one
consumed per successful upload. -/
def upload_place_photos (publicUrl : String → String) :
    List String → List FileStorage → List String
  | _, [] => []
  | uuids, f :: rest =>
    match (upload_place_photo publicUrl (uuids.headD "") (some f)).1 with
    | some url => url :: upload_place_photos publicUrl uuids.tail rest
    | none => upload_place_photos publicUrl uuids rest

/-! ### `collect_schedule_entries` (src/app.py lines 263-317) -/

def filesGetlist (files : List (String × FileStorage)) (k : String) : List FileStorage :=
  (files.filter (fun p => p.1 == k)).map (fun p => p.2)

/-- `key.rsplit("_", 1)[-1]` followed by `isdigit` and `int`. -/
def idxSuffix (k : String) : Option Nat :=
  let cs := k.toList
  let tailPart := if cs.contains '_' then afterLastChar '_' cs else cs
  if !tailPart.isEmpty && tailPart.all isAsciiDigit then some (digitsToNat tailPart) else none

def natSuffixKeys (ks : List String) (pre : String) : List Nat :=
  ks.filterMap (fun k => if strStarts k pre then idxSuffix k else none)

/-- The `indices` set of `collect_schedule_entries`, iterated in sorted
order: indices of `schedule_*` form keys united with indices of
`schedule_photos_*` file keys. -/
def scheduleIndices (form : List (String × String))
    (files : List (String × FileStorage)) : List Nat :=
  List.insertionSort (fun a b => a ≤ b)
    ((natSuffixKeys (form.map (fun p => p.1)) "schedule_" ++
        natSuffixKeys (files.map (fun p => p.1)) "schedule_photos_").dedup)

structure ScheduleEntry where
  title : String
  date : Option String
  start_time : Option String
  end_time : Option String
  detail : String
  place_id : Option String
  address : Option String
  lat : Option PyFloat
  lng : Option PyFloat
  photo_url : Option String
  rating : Option PyFloat
  user_ratings_total : Option String
  website : Option String
  phone : Option String
  google_url : Option String
  opening_hours : Option String
  photo_urls : List String
  photo_refs : List String
  photo_files : List FileStorage
deriving DecidableEq, Repr

/-- The body of the `for index in sorted(indices)` loop: `none` models
`continue` (the entry is dropped because every meaningful field and the
file list are empty). -/
def buildScheduleEntry (form : List (String × String))
    (files : List (String × FileStorage)) (index : Nat) : Option ScheduleEntry :=
  let i := Nat.repr index
  let title := pyStrip (formGetStr form ("schedule_title_" ++ i))
  let schedule_date := orNone (some (pyStrip (formGetStr form ("schedule_date_" ++ i))))
  let start_time := orNone (some (pyStrip (formGetStr form ("schedule_start_time_" ++ i))))
  let end_time := orNone (some (pyStrip (formGetStr form ("schedule_end_time_" ++ i))))
  let detail := pyStrip (formGetStr form ("schedule_detail_" ++ i))
  let place_id := orNone (formGet form ("schedule_place_id_" ++ i))
  let address := orNone (formGet form ("schedule_address_" ++ i))
  let photo_files := filesGetlist files ("schedule_photos_" ++ i)
  if title = "" ∧ schedule_date = none ∧ detail = "" ∧ address = none ∧ place_id = none ∧
      photo_files = [] then
    none
  else
    some
      { title := title
        date := schedule_date
        start_time := start_time
        end_time := end_time
        detail := detail
        place_id := place_id
        address := address
        lat := parse_float (formGet form ("schedule_lat_" ++ i))
        lng := parse_float (formGet form ("schedule_lng_" ++ i))
        photo_url := normalize_photo_url (orNone (formGet form ("schedule_photo_url_" ++ i)))
        rating := parse_float (formGet form ("schedule_rating_" ++ i))
        user_ratings_total := orNone (formGet form ("schedule_user_ratings_total_" ++ i))
        website := orNone (formGet form ("schedule_website_" ++ i))
        phone := orNone (formGet form ("schedule_phone_" ++ i))
        google_url := orNone (formGet form ("schedule_google_url_" ++ i))
        opening_hours := orNone (formGet form ("schedule_opening_hours_" ++ i))
        photo_urls := parse_photo_urls (formGet form ("schedule_photo_urls_" ++ i))
        photo_refs := parse_photo_refs (formGet form ("schedule_photo_refs_" ++ i))
        photo_files := photo_files }

/-- src/app.py `collect_schedule_entries`. -/
def collect_schedule_entries (form : List (String × String))
    (files : List (String × FileStorage)) : List ScheduleEntry :=
  (scheduleIndices form files).filterMap (buildScheduleEntry form files)

/-! ### Schedule list view: partition, sorting, photo dedupe and cap
(src/app.py lines 849-955)

A schedule row enters the partition and sort logic only through its
`date` string and its `id`, so `SRow` carries exactly those.  Python
`list.sort` is a stable sort; a stable sort with respect to a total
preorder on keys is unique, and `List.insertionSort` is stable, so the
two sorts below are modelled by `insertionSort` with the corresponding
key preorder (`reverse=True` flips the key comparison and, being stable,
still keeps equal-key rows in their original relative order). -/

structure SRow where
  id : Option Nat
  date : Option String
deriving DecidableEq, Repr

/-- `row_date = parse_date(row.get("date")); if row_date and row_date < today`. -/
def isPastRow (today : PyDate) (r : SRow) : Bool :=
  match parse_date r.date with
  | some d => PyDate.ltB d today
  | none => false

/-- The partition loop of the schedule view: `(upcoming, past)`, each in
original row order. -/
def splitSchedules (today : PyDate) (rows : List SRow) : List SRow × List SRow :=
  (rows.filter (fun r => !isPastRow today r), rows.filter (isPastRow today))

/-- Sort key `(parse_date(r.get("date")) or date.max, r.get("id") or 0)`. -/
def upcomingKey (r : SRow) : PyDate × Nat := ((parse_date r.date).getD pyDateMax, r.id.getD 0)

/-- Sort key `(parse_date(r.get("date")) or date.min, r.get("id") or 0)`. -/
def pastKey (r : SRow) : PyDate × Nat := ((parse_date r.date).getD pyDateMin, r.id.getD 0)

/-- Python tuple comparison `(date, id) <= (date, id)`. -/
def keyLeB (p q : PyDate × Nat) : Bool :=
  PyDate.ltB p.1 q.1 || (p.1 == q.1 && Nat.ble p.2 q.2)

def upcomingRel (a b : SRow) : Prop := keyLeB (upcomingKey a) (upcomingKey b) = true

/-- `reverse=True`: a comes no later than b exactly when the key of b is
at most the key of a. -/
def pastRel (a b : SRow) : Prop := keyLeB (pastKey b) (pastKey a) = true

instance : DecidableRel upcomingRel := fun a b =>
  inferInstanceAs (Decidable (keyLeB (upcomingKey a) (upcomingKey b) = true))

instance : DecidableRel pastRel := fun a b =>
  inferInstanceAs (Decidable (keyLeB (pastKey b) (pastKey a) = true))

/-- `upcoming.sort(key=..., reverse=False)` -/
def sortUpcoming (rows : List SRow) : List SRow := List.insertionSort upcomingRel rows

/-- `past.sort(key=..., reverse=True)` -/
def sortPast (rows : List SRow) : List SRow := List.insertionSort pastRel rows

theorem keyLeB_total (p q : PyDate × Nat) : keyLeB p q = true ∨ keyLeB q p = true := by
  obtain ⟨⟨y1, m1, d1⟩, i1⟩ := p
  obtain ⟨⟨y2, m2, d2⟩, i2⟩ := q
  simp only [keyLeB, PyDate.ltB, Bool.or_eq_true, Bool.and_eq_true, Nat.blt_eq, Nat.ble_eq,
    beq_iff_eq, PyDate.mk.injEq]
  omega

theorem keyLeB_trans {p q r : PyDate × Nat} (h1 : keyLeB p q = true)
    (h2 : keyLeB q r = true) : keyLeB p r = true := by
  obtain ⟨⟨y1, m1, d1⟩, i1⟩ := p
  obtain ⟨⟨y2, m2, d2⟩, i2⟩ := q
  obtain ⟨⟨y3, m3, d3⟩, i3⟩ := r
  simp only [keyLeB, PyDate.ltB, Bool.or_eq_true, Bool.and_eq_true, Nat.blt_eq, Nat.ble_eq,
    beq_iff_eq, PyDate.mk.injEq] at h1 h2 ⊢
  omega

instance : IsTotal SRow pastRel :=
  ⟨fun a b => (keyLeB_total (pastKey a) (pastKey b)).symm⟩

instance : IsTrans SRow pastRel :=
  ⟨fun _ _ _ h1 h2 => keyLeB_trans h2 h1⟩

instance : IsTotal SRow upcomingRel :=
  ⟨fun a b => keyLeB_total (upcomingKey a) (upcomingKey b)⟩

instance : IsTrans SRow upcomingRel :=
  ⟨fun _ _ _ h1 h2 => keyLeB_trans h1 h2⟩

/-! Photo rows and the per-schedule dedupe/cap maintenance. -/

structure SchedulePhotoRow where
  id : Nat
  schedule_id : Nat
  photo_url : Option String
deriving DecidableEq, Repr

structure PhotoEntry where
  id : Option Nat
  url : String
  display_url : String
  is_google : Bool
deriving DecidableEq, Repr

def charsContainsSub (needle : List Char) : List Char → Bool
  | [] => needle.isEmpty
  | c :: rest => charsStart needle (c :: rest) || charsContainsSub needle rest

def strContainsSub (s sub : String) : Bool := charsContainsSub sub.toList s.toList

/-- src/app.py `build_schedule_photo_entry` (closure over the Maps API
key inside the schedule view). -/
def build_schedule_photo_entry (api_key : Option String)
    (photo_row : SchedulePhotoRow) : PhotoEntry :=
  let raw_url := photo_row.photo_url.getD ""
  let ref : Option String :=
    if strStarts raw_url "google-ref:" then some (String.mk (raw_url.toList.drop 11))
    else extract_photo_reference (some raw_url)
  let is_google :=
    strTruthy ref || strContainsSub raw_url "googleusercontent.com" ||
      strContainsSub raw_url "maps.googleapis.com"
  let display_url :=
    if strTruthy ref ∧ strTruthy api_key then
      "https://maps.googleapis.com/maps/api/place/photo?maxwidth=600&photo_reference=" ++
        ref.getD "" ++ "&key=" ++ api_key.getD ""
    else raw_url
  { id := some photo_row.id, url := raw_url, display_url := display_url, is_google := is_google }

/-- Truthiness of `photo.get("id")`: `None` and `0` are falsy. -/
def idTruthy : Option Nat → Bool
  | none => false
  | some n => !(n = 0)

/-- Python dict assignment `deduped[url] = photo` on an existing key
keeps the original key position. -/
def assocReplace (acc : List (String × PhotoEntry)) (url : String)
    (photo : PhotoEntry) : List (String × PhotoEntry) :=
  acc.map (fun p => if p.1 == url then (p.1, photo) else p)

/-- One iteration of the dedupe loop: skip empty URLs; insert unseen
URLs; replace a stored id-less copy when the new copy has an id. -/
def dedupeStep (acc : List (String × PhotoEntry)) (photo : PhotoEntry) :
    List (String × PhotoEntry) :=
  let url := photo.url
  if url = "" then acc
  else
    match acc.find? (fun p => p.1 == url) with
    | none => acc ++ [(url, photo)]
    | some existing =>
      if existing.2.id = none ∧ idTruthy photo.id then assocReplace acc url photo else acc

/-- `deduped` insertion-ordered dict, then `list(deduped.values())`. -/
def dedupePhotoEntries (entries : List PhotoEntry) : List PhotoEntry :=
  (entries.foldl dedupeStep []).map (fun p => p.2)

/-- `delete().in_("id", excess_ids)` on the schedule photo table. -/
def deletePhotoRowsByIds (table : List SchedulePhotoRow) (ids : List Nat) :
    List SchedulePhotoRow :=
  table.filter (fun r => !ids.contains r.id)

/-- The per-schedule body of the photo maintenance loop (src/app.py
lines 936-952): dedupe, cap at 3, hard-delete the ids beyond the cap;
returns the retained display list and the photo table after the
deletion. -/
def capSchedulePhotos (table : List SchedulePhotoRow) (entries : List PhotoEntry) :
    List PhotoEntry × List SchedulePhotoRow :=
  if entries.isEmpty then (entries, table)
  else
    let ordered := dedupePhotoEntries entries
    if 3 < ordered.length then
      let excess_ids := (ordered.drop 3).filterMap (fun p => if idTruthy p.id then p.id else none)
      let table2 := if excess_ids.isEmpty then table else deletePhotoRowsByIds table excess_ids
      (ordered.take 3, table2)
    else (ordered, table)

/-- `.in_("schedule_id", schedule_ids).order("id", desc=False)` on the
schedule photo table. -/
def schedulePhotoQuery (table : List SchedulePhotoRow) (ids : List Nat) :
    List SchedulePhotoRow :=
  List.insertionSort (fun a b => a.id ≤ b.id) (table.filter (fun r => ids.contains r.schedule_id))

/-- The schedule list view photo maintenance for a trip whose schedule
list is the single schedule `sid`: fetch the photo rows, build display
entries, dedupe, cap and delete. -/
def scheduleViewPhotoPass (api_key : Option String) (table : List SchedulePhotoRow)
    (sid : Nat) : List PhotoEntry × List SchedulePhotoRow :=
  let rows := schedulePhotoQuery table [sid]
  capSchedulePhotos table (rows.map (build_schedule_photo_entry api_key))

/-! ### Database world and the row-deleting request handlers
(src/app.py lines 714-745, 1119-1127, 1152-1159, 1219-1226, 1380-1406,
1536-1543)

Each handler takes the resolved active trip (`none` models the redirect
to the trip page with no data access), the submitted form, and the world
of tables.  Form id fields follow the source pattern
`if x and str(x).isdigit(): x = int(x)` then `if x:`, so a field can be
a converted integer (`0` falsy) or a remaining non-digit string, which
matches no integer row id. -/

inductive FormId where
  | num (n : Nat)
  | str (s : String)
deriving DecidableEq, Repr

def parseFormId (v : Option String) : Option FormId :=
  match orNone v with
  | none => none
  | some s => if isDigits s then some (.num (digitsToNat s.toList)) else some (.str s)

def formIdTruthy : Option FormId → Bool
  | none => false
  | some (.num n) => !(n = 0)
  | some (.str _) => true

def optIdMatches (v : Option FormId) (rowId : Nat) : Bool :=
  match v with
  | some (.num n) => rowId == n
  | some (.str _) => false
  | none => false

structure PlaceRow where
  id : Nat
  trip_id : Nat
  photo_url : Option String
deriving DecidableEq, Repr

structure PlacePhotoRow where
  id : Nat
  place_id : Nat
  photo_url : Option String
deriving DecidableEq, Repr

structure ScheduleDbRow where
  id : Nat
  trip_id : Nat
deriving DecidableEq, Repr

structure SchedulePostRow where
  id : Nat
  schedule_id : Nat
deriving DecidableEq, Repr

structure SchedulePostPhotoRow where
  id : Nat
  post_id : Nat
  photo_url : Option String
deriving DecidableEq, Repr

structure MemoRow where
  id : Nat
  trip_id : Nat
deriving DecidableEq, Repr

structure HotelRow where
  id : Nat
  trip_id : Nat
deriving DecidableEq, Repr

structure HotelPhotoRow where
  id : Nat
  hotel_id : Nat
  photo_url : Option String
deriving DecidableEq, Repr

structure FlightRow where
  id : Nat
  trip_id : Nat
deriving DecidableEq, Repr

structure World where
  places : List PlaceRow
  place_photos : List PlacePhotoRow
  schedules : List ScheduleDbRow
  schedule_photos : List SchedulePhotoRow
  schedule_posts : List SchedulePostRow
  schedule_post_photos : List SchedulePostPhotoRow
  memos : List MemoRow
  hotels : List HotelRow
  hotel_photos : List HotelPhotoRow
  flights : List FlightRow
deriving DecidableEq, Repr

/-- src/app.py `places_photo_delete` (POST /places/photo/delete): deletes
the photo row named by `photo_id` with no ownership check, then the
`(place_id, photo_url)` pair, and clears a matching `photo_url` on the
place row — none of the queries filters by the active trip. -/
def places_photo_delete (trip : Option Nat) (form : List (String × String))
    (w : World) : World :=
  match trip with
  | none => w
  | some _ =>
    let photo_id := parseFormId (formGet form "photo_id")
    let place_id := parseFormId (formGet form "place_id")
    let photo_url := orNone (formGet form "photo_url")
    let w1 :=
      if formIdTruthy photo_id then
        { w with place_photos := w.place_photos.filter (fun r => !optIdMatches photo_id r.id) }
      else w
    if formIdTruthy place_id ∧ strTruthy photo_url then
      { w1 with
        place_photos :=
          w1.place_photos.filter
            (fun r => !(optIdMatches place_id r.place_id && r.photo_url == photo_url)),
        places :=
          w1.places.map (fun r =>
            if optIdMatches place_id r.id && r.photo_url == photo_url then
              { r with photo_url := none }
            else r) }
    else w1

/-- src/app.py `schedule_post_delete` (POST /schedule/post/:id/delete):
deletes the post photos and the post by bare ids, with no trip filter. -/
def schedule_post_delete (trip : Option Nat) (post_id : Nat) (w : World) : World :=
  match trip with
  | none => w
  | some _ =>
    { w with
      schedule_post_photos := w.schedule_post_photos.filter (fun r => !(r.post_id == post_id)),
      schedule_posts := w.schedule_posts.filter (fun r => !(r.id == post_id)) }

/-- src/app.py `hotels_photo_delete` (POST /hotels/photo/delete): deletes
the photo row named by `photo_id`, then every photo row of the hotel
named by `hotel_id`; the form's `photo_url` is never read and no query
filters by the active trip. -/
def hotels_photo_delete (trip : Option Nat) (form : List (String × String))
    (w : World) : World :=
  match trip with
  | none => w
  | some _ =>
    let photo_id := parseFormId (formGet form "photo_id")
    let hotel_id := parseFormId (formGet form "hotel_id")
    let w1 :=
      if formIdTruthy photo_id then
        { w with hotel_photos := w.hotel_photos.filter (fun r => !optIdMatches photo_id r.id) }
      else w
    if formIdTruthy hotel_id then
      { w1 with
        hotel_photos := w1.hotel_photos.filter (fun r => !optIdMatches hotel_id r.hotel_id) }
    else w1

/-- src/app.py `places_delete`: `.eq("id", place_id).eq("trip_id", trip["id"])`. -/
def places_delete (trip : Option Nat) (place_id : Nat) (w : World) : World :=
  match trip with
  | none => w
  | some t =>
    { w with places := w.places.filter (fun r => !(r.id == place_id && r.trip_id == t)) }

/-- src/app.py `schedule_delete`: `.eq("id", schedule_id).eq("trip_id", trip["id"])`. -/
def schedule_delete (trip : Option Nat) (schedule_id : Nat) (w : World) : World :=
  match trip with
  | none => w
  | some t =>
    { w with schedules := w.schedules.filter (fun r => !(r.id == schedule_id && r.trip_id == t)) }

/-- src/app.py `memo_delete`: `.eq("id", memo_id).eq("trip_id", trip["id"])`. -/
def memo_delete (trip : Option Nat) (memo_id : Nat) (w : World) : World :=
  match trip with
  | none => w
  | some t =>
    { w with memos := w.memos.filter (fun r => !(r.id == memo_id && r.trip_id == t)) }

/-- src/app.py `hotels_delete`: `.eq("id", hotel_id).eq("trip_id", trip["id"])`. -/
def hotels_delete (trip : Option Nat) (hotel_id : Nat) (w : World) : World :=
  match trip with
  | none => w
  | some t =>
    { w with hotels := w.hotels.filter (fun r => !(r.id == hotel_id && r.trip_id == t)) }

/-- src/app.py `flights_delete`: `.eq("id", flight_id).eq("trip_id", trip["id"])`. -/
def flights_delete (trip : Option Nat) (flight_id : Nat) (w : World) : World :=
  match trip with
  | none => w
  | some t =>
    { w with flights := w.flights.filter (fun r => !(r.id == flight_id && r.trip_id == t)) }

/-! ## Claims -/

/-! ### C6: `normalize_category` -/

theorem normalize_category_mem (v : Option String) :
    normalize_category v ∈ PLACE_CATEGORIES := by
  cases v with
  | none => simp [normalize_category, PLACE_CATEGORIES]
  | some s =>
    by_cases h0 : s = ""
    · simp [normalize_category, h0, PLACE_CATEGORIES]
    · simp only [normalize_category, h0, if_false]
      by_cases h1 : PLACE_CATEGORIES.contains (pyStrip s) = true
      · simp only [h1, if_true]
        simpa using h1
      · simp only [h1, if_false]
        cases hleg : legacyCategoryLookup (strLower (pyStrip s)) with
        | none => simp [PLACE_CATEGORIES]
        | some c =>
          unfold legacyCategoryLookup at hleg
          split_ifs at hleg <;> simp_all [PLACE_CATEGORIES]

theorem normalize_category_fix {c : String} (hc : c ∈ PLACE_CATEGORIES) :
    normalize_category (some c) = c := by
  fin_cases hc <;> decide

/-- C6: `normalize_category` is idempotent and always returns one of the
five canonical categories; every canonical input is returned unchanged,
every known legacy lowercase key maps to its canonical value, and
anything else (including missing input) falls back to その他. -/
theorem claim_C6_normalize_category :
    (∀ v : Option String,
        normalize_category (some (normalize_category v)) = normalize_category v ∧
        normalize_category v ∈ PLACE_CATEGORIES) ∧
    (normalize_category (some "スポット") = "スポット" ∧
      normalize_category (some "レストラン") = "レストラン" ∧
      normalize_category (some "居酒屋") = "居酒屋" ∧
      normalize_category (some "カフェ") = "カフェ" ∧
      normalize_category (some "その他") = "その他") ∧
    (normalize_category (some "spot") = "スポット" ∧
      normalize_category (some "restaurant") = "レストラン" ∧
      normalize_category (some "izakaya") = "居酒屋" ∧
      normalize_category (some "cafe") = "カフェ") ∧
    (normalize_category (some "anything else") = "その他" ∧
      normalize_category (some "") = "その他" ∧
      normalize_category none = "その他") := by
  refine ⟨fun v => ⟨normalize_category_fix (normalize_category_mem v),
    normalize_category_mem v⟩, by decide, by decide, by decide⟩

theorem claim_C6_witness :
    normalize_category (some (normalize_category (some "spot"))) =
      normalize_category (some "spot") :=
  (claim_C6_normalize_category.1 (some "spot")).1

/-! ### C9: `parse_date` / `parse_float` never raise -/

/-- C9: the parsing helpers are total `Option`-valued functions: `None`
and `""` give `None`, unparseable input gives `None`, and parseable
input gives the parsed value (shown on representative inputs). -/
theorem claim_C9_parse_helpers :
    (∀ v : Option String, parse_date v = none ∨ ∃ d, parse_date v = some d) ∧
    parse_date none = none ∧ parse_date (some "") = none ∧
    (∀ v : Option String, parse_float v = none ∨ ∃ q, parse_float v = some q) ∧
    parse_float none = none ∧ parse_float (some "") = none ∧
    parse_date (some "2024-06-10") = some ⟨2024, 6, 10⟩ ∧
    parse_date (some "not-a-date") = none ∧
    parse_date (some "2024-02-30") = none ∧
    parse_float (some "3.5") = some (.num (Rat.divInt 7 2)) ∧
    parse_float (some "abc") = none ∧
    parse_float (some "-1e2") = some (.num (Rat.divInt (-100) 1)) := by
  refine ⟨fun v => ?_, by decide, by decide, fun v => ?_, by decide, by decide, by decide,
    by decide, by decide, by decide, by decide, by decide⟩
  · cases h : parse_date v with
    | none => exact Or.inl rfl
    | some d => exact Or.inr ⟨d, rfl⟩
  · cases h : parse_float v with
    | none => exact Or.inl rfl
    | some q => exact Or.inr ⟨q, rfl⟩

theorem claim_C9_witness : parse_date none = none ∧ parse_float none = none :=
  ⟨claim_C9_parse_helpers.2.1, claim_C9_parse_helpers.2.2.2.2.1⟩

/-! ### C4: the upcoming/past partition of the schedule view -/

/-- The claim's description of a past row: its date parses and the parsed
date is strictly before today. -/
def rowIsPastSpec (today : PyDate) (r : SRow) : Prop :=
  ∃ d, parse_date r.date = some d ∧ PyDate.ltP d today

/-- C4: a schedule row lands in `past` exactly when its date parses and
is strictly before today, and in `upcoming` otherwise; a null-dated row
is never past.  Shown with the partition equations, the membership
characterisation, and the spec example for today = 2024-06-10. -/
theorem claim_C4_schedule_partition :
    (∀ (today : PyDate) (rows : List SRow),
        splitSchedules today rows =
          (rows.filter (fun r => !isPastRow today r), rows.filter (isPastRow today))) ∧
    (∀ (today : PyDate) (r : SRow), isPastRow today r = true ↔ rowIsPastSpec today r) ∧
    (∀ (today : PyDate) (r : SRow), r.date = none → isPastRow today r = false) ∧
    splitSchedules ⟨2024, 6, 10⟩
        [⟨some 1, some "2024-06-09"⟩, ⟨some 2, some "2024-06-10"⟩, ⟨some 3, none⟩,
          ⟨some 4, some "2024-06-15"⟩] =
      ([⟨some 2, some "2024-06-10"⟩, ⟨some 3, none⟩, ⟨some 4, some "2024-06-15"⟩],
        [⟨some 1, some "2024-06-09"⟩]) := by
  refine ⟨fun _ _ => rfl, fun today r => ?_, fun today r h => ?_, by decide⟩
  · unfold isPastRow rowIsPastSpec
    cases hp : parse_date r.date with
    | none => simp
    | some d => simp [PyDate.ltP]
  · simp [isPastRow, h, parse_date]

theorem claim_C4_witness :
    isPastRow ⟨2024, 6, 10⟩ ⟨some 3, none⟩ = false :=
  claim_C4_schedule_partition.2.2.1 ⟨2024, 6, 10⟩ ⟨some 3, none⟩ rfl

/-! ### C3: the sort order of `past` -/

def dateOrMin (r : SRow) : PyDate := (parse_date r.date).getD pyDateMin

/-- The order the code actually produces on `past`: later dates first,
an unparseable date counting as the minimal date, and ties on the date
broken by id descending. -/
def pastOrderSpec (a b : SRow) : Prop :=
  PyDate.ltP (dateOrMin b) (dateOrMin a) ∨
    (dateOrMin b = dateOrMin a ∧ b.id.getD 0 ≤ a.id.getD 0)

theorem keyLeB_iff (p q : PyDate × Nat) :
    keyLeB p q = true ↔ (PyDate.ltP p.1 q.1 ∨ (p.1 = q.1 ∧ p.2 ≤ q.2)) := by
  obtain ⟨⟨y1, m1, d1⟩, i1⟩ := p
  obtain ⟨⟨y2, m2, d2⟩, i2⟩ := q
  simp only [keyLeB, PyDate.ltP, PyDate.ltB, Bool.or_eq_true, Bool.and_eq_true, Nat.blt_eq,
    Nat.ble_eq, beq_iff_eq, PyDate.mk.injEq]

theorem pastRel_iff (a b : SRow) : pastRel a b ↔ pastOrderSpec a b := by
  unfold pastRel pastOrderSpec
  rw [keyLeB_iff]
  rfl

/-- C3 counterexample: the claim predicts id ASCENDING as the tie-break
among past rows sharing a date, but `reverse=True` flips the id
component of the key as well, so two past rows with the same date come
out id-descending. -/
theorem claim_C3_counterexample :
    sortPast [⟨some 1, some "2024-06-01"⟩, ⟨some 2, some "2024-06-01"⟩] =
      [⟨some 2, some "2024-06-01"⟩, ⟨some 1, some "2024-06-01"⟩] ∧
    ¬ sortPast [⟨some 1, some "2024-06-01"⟩, ⟨some 2, some "2024-06-01"⟩] =
        [⟨some 1, some "2024-06-01"⟩, ⟨some 2, some "2024-06-01"⟩] ∧
    isPastRow ⟨2024, 6, 10⟩ ⟨some 1, some "2024-06-01"⟩ = true ∧
    isPastRow ⟨2024, 6, 10⟩ ⟨some 2, some "2024-06-01"⟩ = true := by
  refine ⟨by decide, by decide, by decide, by decide⟩

/-- C3 (amended): the schedule view sorts `past` descending by date,
with unparseable dates treated as minimal (hence sorted last) and id
DESCENDING as the tie-break among rows sharing a date: the result is a
permutation of the input sorted by that order. -/
theorem claim_C3_amended (rows : List SRow) :
    List.Perm (sortPast rows) rows ∧ List.Sorted pastOrderSpec (sortPast rows) :=
  ⟨List.perm_insertionSort pastRel rows,
    List.Pairwise.imp (fun h => (pastRel_iff _ _).mp h)
      (List.sorted_insertionSort pastRel rows)⟩

theorem claim_C3_witness :
    List.Perm (sortPast [⟨some 1, some "2024-06-01"⟩, ⟨some 2, some "2024-06-01"⟩])
      [⟨some 1, some "2024-06-01"⟩, ⟨some 2, some "2024-06-01"⟩] :=
  (claim_C3_amended [⟨some 1, some "2024-06-01"⟩, ⟨some 2, some "2024-06-01"⟩]).1

/-! ### C7: `normalize_photo_url` -/

/-- C7 counterexample: the claim says any url that neither carries the
`google-ref:` prefix nor yields a reference token is returned unchanged,
but the empty string is such a url and the function returns `None` for
it (falsy input short-circuit), not the url itself. -/
theorem claim_C7_counterexample :
    strStarts "" "google-ref:" = false ∧
    extract_photo_reference (some "") = none ∧
    normalize_photo_url (some "") = none ∧
    ¬ normalize_photo_url (some "") = some "" := by
  refine ⟨by decide, by decide, by decide, by decide⟩

/-- C7 (amended): for every NON-EMPTY string url the claimed case split
holds (prefixed input is a fixed point, an extractable token yields
`google-ref:` + decoded token, anything else passes through unchanged);
an empty or missing url yields `None`. -/
theorem claim_C7_amended :
    (∀ s : String, ¬ s = "" →
        (strStarts s "google-ref:" = true → normalize_photo_url (some s) = some s) ∧
        (∀ ref, strStarts s "google-ref:" = false →
            extract_photo_reference (some s) = some ref →
            normalize_photo_url (some s) = some ("google-ref:" ++ ref)) ∧
        (strStarts s "google-ref:" = false → extract_photo_reference (some s) = none →
            normalize_photo_url (some s) = some s)) ∧
    normalize_photo_url none = none ∧
    normalize_photo_url (some "") = none ∧
    normalize_photo_url
        (some "https://maps.googleapis.com/maps/api/place/photo?photo_reference=ABC123&maxwidth=400") =
      some "google-ref:ABC123" ∧
    normalize_photo_url (some "google-ref:XYZ") = some "google-ref:XYZ" := by
  refine ⟨fun s hs => ⟨fun hpre => ?_, fun ref hpre hex => ?_, fun hpre hex => ?_⟩,
    by decide, by decide, by decide, by decide⟩
  · simp [normalize_photo_url, hs, hpre]
  · simp [normalize_photo_url, hs, hpre, hex]
  · simp [normalize_photo_url, hs, hpre, hex]

theorem claim_C7_witness :
    normalize_photo_url (some "https://example.com/pic.png") =
      some "https://example.com/pic.png" :=
  (claim_C7_amended.1 "https://example.com/pic.png" (by decide)).2.2 (by decide) (by decide)

/-! ### C10: the hotels photo-delete route deletes all of the hotel's photos -/

theorem parseFormId_digits {s : String} {h : Nat} (hdig : isDigits s = true)
    (hval : digitsToNat s.toList = h) : parseFormId (some s) = some (.num h) := by
  have hs : ¬ s = "" := by
    intro hc
    subst hc
    simp [isDigits] at hdig
  simp only [parseFormId, orNone, hs, if_false, hdig, if_true]
  exact congrArg (fun n => some (FormId.num n)) hval

/-- C10: with an active trip and a numeric nonzero `hotel_id` form field,
POST /hotels/photo/delete removes every hotel-photo row whose `hotel_id`
equals the submitted id — all N rows of that hotel, plus the row named by
a numeric nonzero `photo_id` if one was sent — and the submitted
`photo_url` has no influence on the outcome. -/
theorem claim_C10_hotels_photo_delete_all (w : World) (t h : Nat)
    (form : List (String × String)) (s : String)
    (hget : formGet form "hotel_id" = some s) (hdig : isDigits s = true)
    (hval : digitsToNat s.toList = h) (hnz : ¬ h = 0) :
    (hotels_photo_delete (some t) form w).hotel_photos =
      (if formIdTruthy (parseFormId (formGet form "photo_id")) then
          w.hotel_photos.filter
            (fun r => !optIdMatches (parseFormId (formGet form "photo_id")) r.id)
        else w.hotel_photos).filter (fun r => !(r.hotel_id == h)) ∧
    (∀ r ∈ w.hotel_photos, r.hotel_id = h →
        r ∉ (hotels_photo_delete (some t) form w).hotel_photos) ∧
    (hotels_photo_delete (some t) form w).hotel_photos.filter (fun r => r.hotel_id == h) = [] ∧
    (∀ form2 : List (String × String),
        formGet form2 "photo_id" = formGet form "photo_id" →
        formGet form2 "hotel_id" = formGet form "hotel_id" →
        hotels_photo_delete (some t) form2 w = hotels_photo_delete (some t) form w) ∧
    (∀ (s2 : String) (p : Nat), formGet form "photo_id" = some s2 → isDigits s2 = true →
        digitsToNat s2.toList = p → ¬ p = 0 →
        ∀ r ∈ w.hotel_photos, r.id = p →
          r ∉ (hotels_photo_delete (some t) form w).hotel_photos) := by
  have hpf : parseFormId (formGet form "hotel_id") = some (.num h) := by
    rw [hget]
    exact parseFormId_digits hdig hval
  have htru : formIdTruthy (some (FormId.num h)) = true := by
    simp [formIdTruthy, hnz]
  have hres :
      (hotels_photo_delete (some t) form w).hotel_photos =
        (if formIdTruthy (parseFormId (formGet form "photo_id")) then
            w.hotel_photos.filter
              (fun r => !optIdMatches (parseFormId (formGet form "photo_id")) r.id)
          else w.hotel_photos).filter (fun r => !(r.hotel_id == h)) := by
    simp only [hotels_photo_delete, hpf, htru, if_true, optIdMatches]
    split <;> rfl
  refine ⟨hres, ?_, ?_, ?_, ?_⟩
  · intro r _ hrh hmem
    rw [hres] at hmem
    have := (List.mem_filter.mp hmem).2
    simp [hrh] at this
  · rw [hres]
    rw [List.filter_eq_nil_iff]
    intro r hr
    have := (List.mem_filter.mp hr).2
    simpa using this
  · intro form2 hp2 hh2
    simp only [hotels_photo_delete, hp2, hh2]
  · intro s2 p hget2 hdig2 hval2 hpz r hrmem hrid hmem
    have hpf2 : parseFormId (formGet form "photo_id") = some (.num p) := by
      rw [hget2]
      exact parseFormId_digits hdig2 hval2
    have htru2 : formIdTruthy (some (FormId.num p)) = true := by
      simp [formIdTruthy, hpz]
    rw [hres] at hmem
    have hw1 := (List.mem_filter.mp hmem).1
    rw [hpf2, htru2, if_pos rfl] at hw1
    have := (List.mem_filter.mp hw1).2
    simp [optIdMatches, hrid] at this

def c10World : World :=
  { places := [], place_photos := [], schedules := [], schedule_photos := [],
    schedule_posts := [], schedule_post_photos := [], memos := [], hotels := [],
    hotel_photos := [⟨5, 3, none⟩, ⟨6, 3, some "a"⟩, ⟨7, 4, none⟩], flights := [] }

def c10Form : List (String × String) := [("hotel_id", "3"), ("photo_url", "ignored")]

theorem claim_C10_witness :
    (hotels_photo_delete (some 1) c10Form c10World).hotel_photos.filter
        (fun r => r.hotel_id == 3) =
      [] :=
  (claim_C10_hotels_photo_delete_all c10World 1 3 c10Form "3" (by decide) (by decide)
      (by decide) (by decide)).2.2.1

/-! ### C1: trip scoping of reads and writes -/

def c1World : World :=
  { places := [⟨1, 1, none⟩, ⟨2, 2, some "u"⟩],
    place_photos := [⟨9, 2, some "u"⟩],
    schedules := [⟨3, 2⟩],
    schedule_photos := [],
    schedule_posts := [⟨4, 3⟩],
    schedule_post_photos := [⟨6, 4, some "p"⟩],
    memos := [], hotels := [], hotel_photos := [], flights := [] }

/-- C1 counterexample: with trip 1 active, POST /places/photo/delete with
photo_id=9 deletes photo row 9 although it belongs to place 2 of trip 2,
and POST /schedule/post/4/delete deletes post 4 and its photo although
post 4 belongs to schedule 3 of trip 2 — the photo/post child handlers
do not filter by the active trip, so the claim fails as stated. -/
theorem claim_C1_counterexample :
    ((places_photo_delete (some 1) [("photo_id", "9")] c1World).place_photos = [] ∧
      c1World.place_photos = [⟨9, 2, some "u"⟩] ∧
      (c1World.places.filter (fun r => r.id == 2)).map (fun r => r.trip_id) = [2] ∧
      ¬ (2 : Nat) = 1) ∧
    ((schedule_post_delete (some 1) 4 c1World).schedule_posts = [] ∧
      (schedule_post_delete (some 1) 4 c1World).schedule_post_photos = [] ∧
      c1World.schedule_posts = [⟨4, 3⟩] ∧
      (c1World.schedules.filter (fun r => r.id == 3)).map (fun r => r.trip_id) = [2]) := by
  refine ⟨⟨by decide, by decide, by decide, by decide⟩, ⟨by decide, by decide, by decide,
    by decide⟩⟩

/-- C1 (amended): the row-targeted delete operations on the five parent
entities (Place, Schedule, Memo, Hotel, Flight) filter by row id AND the
active trip id, so they never remove another trip's rows; the photo/post
child delete handlers, by contrast, filter only by the submitted ids, so
cross-trip deletion of child rows is possible (see the counterexample). -/
theorem claim_C1_amended (w : World) (t rid : Nat) :
    ((places_delete (some t) rid w).places =
        w.places.filter (fun r => !(r.id == rid && r.trip_id == t)) ∧
      ∀ r ∈ w.places, ¬ r.trip_id = t → r ∈ (places_delete (some t) rid w).places) ∧
    ((schedule_delete (some t) rid w).schedules =
        w.schedules.filter (fun r => !(r.id == rid && r.trip_id == t)) ∧
      ∀ r ∈ w.schedules, ¬ r.trip_id = t → r ∈ (schedule_delete (some t) rid w).schedules) ∧
    ((memo_delete (some t) rid w).memos =
        w.memos.filter (fun r => !(r.id == rid && r.trip_id == t)) ∧
      ∀ r ∈ w.memos, ¬ r.trip_id = t → r ∈ (memo_delete (some t) rid w).memos) ∧
    ((hotels_delete (some t) rid w).hotels =
        w.hotels.filter (fun r => !(r.id == rid && r.trip_id == t)) ∧
      ∀ r ∈ w.hotels, ¬ r.trip_id = t → r ∈ (hotels_delete (some t) rid w).hotels) ∧
    ((flights_delete (some t) rid w).flights =
        w.flights.filter (fun r => !(r.id == rid && r.trip_id == t)) ∧
      ∀ r ∈ w.flights, ¬ r.trip_id = t → r ∈ (flights_delete (some t) rid w).flights) := by
  refine ⟨⟨rfl, fun r hr hrt => ?_⟩, ⟨rfl, fun r hr hrt => ?_⟩, ⟨rfl, fun r hr hrt => ?_⟩,
    ⟨rfl, fun r hr hrt => ?_⟩, ⟨rfl, fun r hr hrt => ?_⟩⟩ <;>
    · refine List.mem_filter.mpr ⟨hr, ?_⟩
      simp [hrt]

theorem claim_C1_witness :
    (⟨2, 2, some "u"⟩ : PlaceRow) ∈ (places_delete (some 1) 2 c1World).places :=
  (claim_C1_amended c1World 1 2).1.2 ⟨2, 2, some "u"⟩ (by decide) (by decide)

/-! ### C8: `upload_place_photo` / `upload_place_photos` -/

/-- The claim's reading of the extension check, applied to the RAW
filename: it contains a dot and the lower-cased text after the last dot
is a recognized image extension. -/
def rawHasAllowedExt (filename : String) : Bool :=
  filename.toList.contains '.' &&
    ALLOWED_IMAGE_EXT.contains (strLower (String.mk (afterLastChar '.' filename.toList)))

/-- The extension `upload_place_photo` actually uses: taken from the
SANITIZED filename, `none` when the sanitized name has no dot or the
extension is not recognized. -/
def sanitizedExtOf (filename : String) : Option String :=
  let fn := secure_filename filename
  if fn.toList.contains '.' then
    let ext := strLower (String.mk (afterLastChar '.' fn.toList))
    if ALLOWED_IMAGE_EXT.contains ext then some ext else none
  else none

/-- The acceptance condition of `upload_place_photo` for a present file. -/
def acceptedFile (f : FileStorage) : Bool :=
  !(f.filename == "") && (sanitizedExtOf f.filename).isSome && !f.content.isEmpty

theorem upload_place_photo_eq (pub : String → String) (uuid : String) (f : FileStorage) :
    upload_place_photo pub uuid (some f) =
      if acceptedFile f then
        (some (pub ("places/" ++ uuid ++ "." ++ (sanitizedExtOf f.filename).getD "")),
          [⟨"places/" ++ uuid ++ "." ++ (sanitizedExtOf f.filename).getD "", f.content,
            (orNone f.mimetype).getD "application/octet-stream"⟩])
      else (none, []) := by
  by_cases h1 : f.filename = ""
  · simp [upload_place_photo, acceptedFile, h1]
  · by_cases h2 : '.' ∈ (secure_filename f.filename).data
    · by_cases h3 :
          strLower (String.mk (afterLastChar '.' (secure_filename f.filename).data)) ∈
            ALLOWED_IMAGE_EXT
      · by_cases h4 : f.content = []
        · simp [upload_place_photo, acceptedFile, sanitizedExtOf, h1, h2, h3, h4,
            List.isEmpty_iff]
        · simp [upload_place_photo, acceptedFile, sanitizedExtOf, h1, h2, h3, h4,
            List.isEmpty_iff]
      · simp [upload_place_photo, acceptedFile, sanitizedExtOf, h1, h2, h3]
    · simp [upload_place_photo, acceptedFile, sanitizedExtOf, h1, h2]

/-- The URLs `upload_place_photos` produces for an accepted file list. -/
def acceptedUrls (pub : String → String) : List String → List FileStorage → List String
  | _, [] => []
  | uuids, f :: fs =>
    pub ("places/" ++ uuids.headD "" ++ "." ++ (sanitizedExtOf f.filename).getD "") ::
      acceptedUrls pub uuids.tail fs

theorem acceptedFile_iff (f : FileStorage) :
    acceptedFile f = true ↔
      (¬ f.filename = "" ∧ ¬ sanitizedExtOf f.filename = none ∧ ¬ f.content = []) := by
  unfold acceptedFile
  simp [Option.isSome_iff_ne_none, List.isEmpty_iff, and_assoc]

theorem upload_place_photos_eq (pub : String → String) :
    ∀ (uuids : List String) (files : List FileStorage),
      upload_place_photos pub uuids files = acceptedUrls pub uuids (files.filter acceptedFile)
  | _, [] => rfl
  | uuids, f :: fs => by
    have hstep := upload_place_photo_eq pub (uuids.headD "") f
    by_cases hf : acceptedFile f = true
    · rw [if_pos hf] at hstep
      simp only [upload_place_photos, hstep, List.filter_cons, hf, if_true, acceptedUrls]
      exact congrArg _ (upload_place_photos_eq pub uuids.tail fs)
    · rw [if_neg hf] at hstep
      simp only [upload_place_photos, hstep, List.filter_cons]
      simp only [Bool.not_eq_true] at hf
      simp only [hf, Bool.false_eq_true, if_false]
      exact upload_place_photos_eq pub uuids fs

/-- C8 counterexample: the claim ties rejection to the RAW filename
lacking a recognized extension, but the code checks the extension of the
secure_filename-sanitized name.  The file named ".jpg" (nonempty bytes)
has the recognized raw extension "jpg" yet is rejected (sanitization
strips the leading dot, leaving no extension), while "a.jpg?" has the
unrecognized raw extension "jpg?" yet is accepted (sanitization drops
the "?"). -/
theorem claim_C8_counterexample :
    rawHasAllowedExt ".jpg" = true ∧
    ¬ (".jpg" : String) = "" ∧
    ¬ ([1] : List Nat) = [] ∧
    (upload_place_photo (fun k => "https://store/" ++ k) "u0"
        (some ⟨".jpg", [1], some "image/jpeg"⟩)).1 = none ∧
    rawHasAllowedExt "a.jpg?" = false ∧
    (upload_place_photo (fun k => "https://store/" ++ k) "u0"
        (some ⟨"a.jpg?", [1], some "image/jpeg"⟩)).1 = some "https://store/places/u0.jpg" := by
  refine ⟨by decide, by decide, by decide, by decide, by decide, by decide⟩

/-- C8 (amended): `upload_place_photo` returns `None` (a silent skip)
exactly when the file is missing, its filename is empty, its SANITIZED
filename lacks a recognized extension (jpg/jpeg/png/webp,
case-insensitive), or its byte content is empty; otherwise it uploads
the bytes once under `places/<uuid>.<ext>` with the declared MIME type
(defaulting to application/octet-stream) and returns the public URL.
`upload_place_photos` returns exactly the non-`None` results, in input
order. -/
theorem claim_C8_amended :
    (∀ (pub : String → String) (uuid : String), upload_place_photo pub uuid none = (none, [])) ∧
    (∀ (pub : String → String) (uuid : String) (f : FileStorage),
        (upload_place_photo pub uuid (some f)).1 = none ↔
          (f.filename = "" ∨ sanitizedExtOf f.filename = none ∨ f.content = [])) ∧
    (∀ (pub : String → String) (uuid : String) (f : FileStorage) (ext : String),
        sanitizedExtOf f.filename = some ext → ¬ f.filename = "" → ¬ f.content = [] →
        upload_place_photo pub uuid (some f) =
          (some (pub ("places/" ++ uuid ++ "." ++ ext)),
            [⟨"places/" ++ uuid ++ "." ++ ext, f.content,
              (orNone f.mimetype).getD "application/octet-stream"⟩])) ∧
    (∀ (pub : String → String) (uuids : List String) (files : List FileStorage),
        upload_place_photos pub uuids files = acceptedUrls pub uuids (files.filter acceptedFile)) := by
  refine ⟨fun _ _ => rfl, fun pub uuid f => ?_, fun pub uuid f ext hext hname hbytes => ?_,
    fun pub uuids files => upload_place_photos_eq pub uuids files⟩
  · rw [upload_place_photo_eq]
    by_cases hf : acceptedFile f = true
    · have h := (acceptedFile_iff f).mp hf
      simp [hf, h.1, h.2.1, h.2.2]
    · rw [if_neg hf]
      constructor
      · intro _
        by_contra hno
        push_neg at hno
        exact hf ((acceptedFile_iff f).mpr ⟨hno.1, hno.2.1, hno.2.2⟩)
      · intro _
        rfl
  · have hacc : acceptedFile f = true :=
      (acceptedFile_iff f).mpr ⟨hname, by simp [hext], hbytes⟩
    rw [upload_place_photo_eq, if_pos hacc]
    simp [hext]

theorem claim_C8_witness :
    upload_place_photo (fun k => "https://store/" ++ k) "abc" (some ⟨"pic.png", [7], none⟩) =
      (some "https://store/places/abc.png",
        [⟨"places/abc.png", [7], "application/octet-stream"⟩]) := by
  rw [claim_C8_amended.2.2.1 (fun k => "https://store/" ++ k) "abc" ⟨"pic.png", [7], none⟩ "png"
      (by decide) (by decide) (by decide)]
  decide

/-! ### C5: `collect_schedule_entries` -/

theorem if_opt_eq_some {c : Bool} {o : Option Nat} {i : Nat} :
    (if c = true then o else none) = some i ↔ (c = true ∧ o = some i) := by
  cases c <;> simp

theorem scheduleIndices_sorted (form : List (String × String))
    (files : List (String × FileStorage)) :
    List.Sorted (fun a b : Nat => a < b) (scheduleIndices form files) := by
  unfold scheduleIndices
  have hsorted :
      List.Sorted (fun a b : Nat => a ≤ b)
        (List.insertionSort (fun a b : Nat => a ≤ b)
          ((natSuffixKeys (form.map (fun p => p.1)) "schedule_" ++
              natSuffixKeys (files.map (fun p => p.1)) "schedule_photos_").dedup)) :=
    List.sorted_insertionSort _ _
  have hnodup :
      (List.insertionSort (fun a b : Nat => a ≤ b)
          ((natSuffixKeys (form.map (fun p => p.1)) "schedule_" ++
              natSuffixKeys (files.map (fun p => p.1)) "schedule_photos_").dedup)).Nodup :=
    (List.perm_insertionSort _ _).symm.nodup (List.nodup_dedup _)
  exact (hsorted.and hnodup).imp (fun h => lt_of_le_of_ne h.1 h.2)

theorem scheduleIndices_mem (form : List (String × String))
    (files : List (String × FileStorage)) (i : Nat) :
    i ∈ scheduleIndices form files ↔
      ((∃ k, k ∈ form.map (fun p => p.1) ∧ strStarts k "schedule_" = true ∧
          idxSuffix k = some i) ∨
        (∃ k, k ∈ files.map (fun p => p.1) ∧ strStarts k "schedule_photos_" = true ∧
          idxSuffix k = some i)) := by
  unfold scheduleIndices natSuffixKeys
  rw [List.mem_insertionSort, List.mem_dedup, List.mem_append]
  simp only [List.mem_filterMap, if_opt_eq_some, and_assoc]

/-- C5: index discovery unions the `_<digits>` suffixes of the
`schedule_*` form keys and the `schedule_photos_*` file keys (a
file-only index counts), the indices are processed strictly ascending
(hence at most one entry per index, gaps skipped), one optional entry is
assembled per index, and an index is dropped exactly when its title,
date, detail, address and place id are empty and it has no attached
files.  The spec example `schedule_title_0=A, schedule_title_2=B`
produces exactly the two entries for indices 0 and 2, in that order. -/
theorem claim_C5_collect_schedule_entries :
    (∀ (form : List (String × String)) (files : List (String × FileStorage)),
        List.Sorted (fun a b : Nat => a < b) (scheduleIndices form files)) ∧
    (∀ (form : List (String × String)) (files : List (String × FileStorage)) (i : Nat),
        i ∈ scheduleIndices form files ↔
          ((∃ k, k ∈ form.map (fun p => p.1) ∧ strStarts k "schedule_" = true ∧
              idxSuffix k = some i) ∨
            (∃ k, k ∈ files.map (fun p => p.1) ∧ strStarts k "schedule_photos_" = true ∧
              idxSuffix k = some i))) ∧
    (∀ (form : List (String × String)) (files : List (String × FileStorage)),
        collect_schedule_entries form files =
          (scheduleIndices form files).filterMap (buildScheduleEntry form files)) ∧
    (∀ (form : List (String × String)) (files : List (String × FileStorage)) (i : Nat),
        buildScheduleEntry form files i = none ↔
          (pyStrip (formGetStr form ("schedule_title_" ++ Nat.repr i)) = "" ∧
            orNone (some (pyStrip (formGetStr form ("schedule_date_" ++ Nat.repr i)))) = none ∧
            pyStrip (formGetStr form ("schedule_detail_" ++ Nat.repr i)) = "" ∧
            orNone (formGet form ("schedule_address_" ++ Nat.repr i)) = none ∧
            orNone (formGet form ("schedule_place_id_" ++ Nat.repr i)) = none ∧
            filesGetlist files ("schedule_photos_" ++ Nat.repr i) = [])) ∧
    (scheduleIndices [("schedule_title_0", "A"), ("schedule_title_2", "B")] [] = [0, 2] ∧
      (collect_schedule_entries [("schedule_title_0", "A"), ("schedule_title_2", "B")] []).map
          (fun e => e.title) =
        ["A", "B"] ∧
      (collect_schedule_entries [("schedule_title_0", "A"), ("schedule_title_2", "B")] []).length =
        2) ∧
    (scheduleIndices [] [("schedule_photos_5", ⟨"f.jpg", [1], none⟩)] = [5] ∧
      (collect_schedule_entries [] [("schedule_photos_5", ⟨"f.jpg", [1], none⟩)]).length = 1) := by
  refine ⟨scheduleIndices_sorted, scheduleIndices_mem, fun _ _ => rfl, fun form files i => ?_,
    ⟨by decide, by decide, by decide⟩, ⟨by decide, by decide⟩⟩
  simp only [buildScheduleEntry]
  split
  case isTrue h => simpa using h
  case isFalse h => simpa using h

theorem claim_C5_witness :
    2 ∈ scheduleIndices [("schedule_title_0", "A"), ("schedule_title_2", "B")] [] :=
  (claim_C5_collect_schedule_entries.2.1
        [("schedule_title_0", "A"), ("schedule_title_2", "B")] [] 2).mpr
    (Or.inl ⟨"schedule_title_2", by decide, by decide, by decide⟩)

/-! ### C2: photo dedupe/cap maintenance of the schedule list view -/

theorem filterMap_of_forall_some {α β : Type} {f : α → Option β} {g : α → β} :
    ∀ {l : List α}, (∀ x ∈ l, f x = some (g x)) → l.filterMap f = l.map g
  | [], _ => rfl
  | x :: xs, h => by
    rw [List.filterMap_cons, h x (by simp), List.map_cons,
      filterMap_of_forall_some (fun y hy => h y (by simp [hy]))]

theorem dedupe_foldl_of_distinct :
    ∀ (entries : List PhotoEntry) (acc : List (String × PhotoEntry)),
      (∀ p ∈ entries, ¬ p.url = "") →
      (∀ p ∈ entries, acc.find? (fun q => q.1 == p.url) = none) →
      List.Pairwise (fun p q : PhotoEntry => ¬ p.url = q.url) entries →
      entries.foldl dedupeStep acc = acc ++ entries.map (fun p => (p.url, p))
  | [], acc, _, _, _ => by simp
  | p :: rest, acc, hne, hacc, hpair => by
    have hmemp : p ∈ p :: rest := List.mem_cons_self p rest
    have hstep : dedupeStep acc p = acc ++ [(p.url, p)] := by
      simp only [dedupeStep]
      rw [if_neg (hne p hmemp), hacc p hmemp]
    have hacc2 : ∀ q ∈ rest, (acc ++ [(p.url, p)]).find? (fun x => x.1 == q.url) = none := by
      intro q hq
      rw [List.find?_append, hacc q (List.mem_cons_of_mem p hq)]
      have hpq : ¬ p.url = q.url := (List.pairwise_cons.mp hpair).1 q hq
      have hbeq : (p.url == q.url) = false := beq_eq_false_iff_ne.mpr hpq
      simp [List.find?, hbeq]
    rw [List.foldl_cons, hstep,
      dedupe_foldl_of_distinct rest (acc ++ [(p.url, p)])
        (fun q hq => hne q (List.mem_cons_of_mem p hq)) hacc2
        ((List.pairwise_cons.mp hpair).2)]
    simp

theorem dedupePhotoEntries_of_distinct (entries : List PhotoEntry)
    (hne : ∀ p ∈ entries, ¬ p.url = "")
    (hpair : List.Pairwise (fun p q : PhotoEntry => ¬ p.url = q.url) entries) :
    dedupePhotoEntries entries = entries := by
  unfold dedupePhotoEntries
  rw [dedupe_foldl_of_distinct entries [] hne (fun p _ => rfl) hpair]
  rw [List.nil_append, List.map_map]
  have hcomp :
      ((fun p : String × PhotoEntry => p.2) ∘ fun p : PhotoEntry => (p.url, p)) = id := rfl
  rw [hcomp, List.map_id]

theorem schedulePhotoQuery_of_sorted {table : List SchedulePhotoRow} (ids : List Nat)
    (h : List.Pairwise (fun a b : SchedulePhotoRow => a.id < b.id) table) :
    schedulePhotoQuery table ids = table.filter (fun r => ids.contains r.schedule_id) :=
  List.Sorted.insertionSort_eq
    ((List.Pairwise.filter _ h).imp (fun hab => Nat.le_of_lt hab))

/-- C2: on the schedule list view, a schedule whose fetched photo rows
number 5 with distinct nonempty URLs keeps exactly its 3 oldest (lowest
id) photo rows: the display list is the first 3 fetched entries, the 2
rows beyond the cap are hard-deleted from the photo table, they are no
longer retrievable by id, and a repeat fetch returns exactly the 3
oldest rows.  The table is assumed stored in strictly ascending id
order (ids are unique and assigned in insertion order) with nonzero
ids. -/
theorem claim_C2_schedule_photo_cap (api : Option String) (table : List SchedulePhotoRow)
    (sid : Nat)
    (htab : List.Pairwise (fun a b : SchedulePhotoRow => a.id < b.id) table)
    (h5 : (schedulePhotoQuery table [sid]).length = 5)
    (hurl : ∀ r ∈ schedulePhotoQuery table [sid], ¬ r.photo_url.getD "" = "")
    (hdist :
      List.Pairwise
        (fun a b : SchedulePhotoRow => ¬ a.photo_url.getD "" = b.photo_url.getD "")
        (schedulePhotoQuery table [sid]))
    (hpos : ∀ r ∈ schedulePhotoQuery table [sid], ¬ r.id = 0) :
    (scheduleViewPhotoPass api table sid).1 =
      ((schedulePhotoQuery table [sid]).take 3).map (build_schedule_photo_entry api) ∧
    (scheduleViewPhotoPass api table sid).2 =
      table.filter
        (fun r =>
          !(((schedulePhotoQuery table [sid]).drop 3).map (fun x => x.id)).contains r.id) ∧
    (∀ r ∈ (schedulePhotoQuery table [sid]).drop 3,
        (scheduleViewPhotoPass api table sid).2.filter (fun x => x.id == r.id) = []) ∧
    schedulePhotoQuery (scheduleViewPhotoPass api table sid).2 [sid] =
      (schedulePhotoQuery table [sid]).take 3 ∧
    (schedulePhotoQuery (scheduleViewPhotoPass api table sid).2 [sid]).length = 3 := by
  set rows := schedulePhotoQuery table [sid] with hrowsdef
  set bld := build_schedule_photo_entry api with hbld
  have hq : rows = table.filter (fun r => [sid].contains r.schedule_id) :=
    schedulePhotoQuery_of_sorted [sid] htab
  have hrowsp : List.Pairwise (fun a b : SchedulePhotoRow => a.id < b.id) rows := by
    rw [hq]
    exact List.Pairwise.filter _ htab
  have hlen : (rows.map bld).length = 5 := by rw [List.length_map]; exact h5
  have hne' : ∀ p ∈ rows.map bld, ¬ p.url = "" := by
    intro p hp
    obtain ⟨r, hr, rfl⟩ := List.mem_map.mp hp
    exact hurl r hr
  have hpair' : List.Pairwise (fun p q : PhotoEntry => ¬ p.url = q.url) (rows.map bld) :=
    List.pairwise_map.mpr hdist
  have hdedup : dedupePhotoEntries (rows.map bld) = rows.map bld :=
    dedupePhotoEntries_of_distinct _ hne' hpair'
  have hlendrop : (rows.drop 3).length = 2 := by
    rw [List.length_drop, h5]
  have hexcess :
      ((rows.map bld).drop 3).filterMap (fun p => if idTruthy p.id then p.id else none) =
        (rows.drop 3).map (fun r => r.id) := by
    rw [← List.map_drop]
    rw [List.filterMap_map]
    apply filterMap_of_forall_some
    intro r hr
    have hid := hpos r (List.mem_of_mem_drop hr)
    simp [Function.comp, hbld, build_schedule_photo_entry, idTruthy, hid]
  have hexne : ((rows.drop 3).map (fun r => r.id)).isEmpty = false := by
    have h2 : ((rows.drop 3).map (fun r => r.id)).length = 2 := by
      rw [List.length_map, hlendrop]
    cases hcase : (rows.drop 3).map (fun r => r.id) with
    | nil => rw [hcase] at h2; simp at h2
    | cons a l => rfl
  have hnotempty : ¬ ((rows.map bld).isEmpty = true) := by
    intro hc
    rw [List.isEmpty_iff] at hc
    rw [hc] at hlen
    simp at hlen
  have h35 : 3 < (rows.map bld).length := by rw [hlen]; omega
  have hpass :
      scheduleViewPhotoPass api table sid =
        ((rows.map bld).take 3,
          deletePhotoRowsByIds table ((rows.drop 3).map (fun r => r.id))) := by
    unfold scheduleViewPhotoPass capSchedulePhotos
    rw [← hrowsdef, ← hbld]
    rw [if_neg hnotempty]
    simp only [hdedup]
    rw [if_pos h35, hexcess, hexne]
    simp
  have hfilterform :
      deletePhotoRowsByIds table ((rows.drop 3).map (fun r => r.id)) =
        table.filter (fun r => !((rows.drop 3).map (fun x => x.id)).contains r.id) := rfl
  have hcross : ∀ a ∈ rows.take 3, ∀ b ∈ rows.drop 3, a.id < b.id := by
    have h := hrowsp
    rw [← List.take_append_drop 3 rows] at h
    exact (List.pairwise_append.mp h).2.2
  have hfour :
      schedulePhotoQuery
          (table.filter (fun r => !((rows.drop 3).map (fun x => x.id)).contains r.id)) [sid] =
        rows.take 3 := by
    have htab2 :
        List.Pairwise (fun a b : SchedulePhotoRow => a.id < b.id)
          (table.filter (fun r => !((rows.drop 3).map (fun x => x.id)).contains r.id)) :=
      List.Pairwise.filter _ htab
    rw [schedulePhotoQuery_of_sorted [sid] htab2]
    set dropIds := (rows.drop 3).map (fun x : SchedulePhotoRow => x.id) with hdropIds
    rw [List.filter_filter]
    have hswap :
        table.filter
            (fun a => [sid].contains a.schedule_id && !dropIds.contains a.id) =
          (table.filter (fun r => [sid].contains r.schedule_id)).filter
            (fun a => !dropIds.contains a.id) := by
      rw [List.filter_filter]
      apply List.filter_congr
      intro a _
      exact Bool.and_comm _ _
    rw [hswap, ← hq]
    conv_lhs => rw [← List.take_append_drop 3 rows]
    rw [List.filter_append]
    have htake :
        (rows.take 3).filter (fun a => !dropIds.contains a.id) = rows.take 3 := by
      rw [List.filter_eq_self]
      intro a ha
      have hnotin : a.id ∉ dropIds := by
        rw [hdropIds]
        intro hmem
        obtain ⟨b, hb, hba⟩ := List.mem_map.mp hmem
        exact Nat.ne_of_lt (hcross a ha b hb) hba.symm
      simpa using hnotin
    have hdrop :
        (rows.drop 3).filter (fun a => !dropIds.contains a.id) = [] := by
      rw [List.filter_eq_nil_iff]
      intro b hb
      have hbin : b.id ∈ dropIds := by
        rw [hdropIds]
        exact List.mem_map.mpr ⟨b, hb, rfl⟩
      simpa using hbin
    rw [htake, hdrop, List.append_nil]
  refine ⟨?_, ?_, ?_, ?_, ?_⟩
  · rw [hpass]
    simp [List.map_take]
  · rw [hpass, hfilterform]
  · intro r hr
    rw [hpass, hfilterform]
    rw [List.filter_eq_nil_iff]
    intro x hx
    have hxmem := (List.mem_filter.mp hx).2
    have hxnotin : x.id ∉ (rows.drop 3).map (fun y => y.id) := by
      simpa using hxmem
    have hrid : r.id ∈ (rows.drop 3).map (fun y => y.id) :=
      List.mem_map.mpr ⟨r, hr, rfl⟩
    have hne2 : ¬ x.id = r.id := fun hc => hxnotin (hc ▸ hrid)
    simpa using hne2
  · rw [hpass, hfilterform]
    exact hfour
  · rw [hpass, hfilterform, hfour, List.length_take, h5]
    decide

def c2Table : List SchedulePhotoRow :=
  [⟨1, 7, some "u1"⟩, ⟨2, 7, some "u2"⟩, ⟨3, 7, some "u3"⟩, ⟨4, 7, some "u4"⟩,
    ⟨5, 7, some "u5"⟩, ⟨9, 8, some "x"⟩]

theorem claim_C2_witness :
    (schedulePhotoQuery (scheduleViewPhotoPass none c2Table 7).2 [7]).length = 3 ∧
    (scheduleViewPhotoPass none c2Table 7).2.filter (fun x => x.id == 4) = [] :=
  ⟨(claim_C2_schedule_photo_cap none c2Table 7 (by decide) (by decide) (by decide) (by decide)
        (by decide)).2.2.2.2,
    (claim_C2_schedule_photo_cap none c2Table 7 (by decide) (by decide) (by decide) (by decide)
        (by decide)).2.2.1 ⟨4, 7, some "u4"⟩ (by decide)⟩

end TravelLog
